import Mathlib

/-!
Verification development for `tex-fast-recompile`, a fast incremental
recompilation daemon for TeX engines.  The definitions below are shallow
embeddings of the Python source (`tex_fast_recompile/__main__.py` and
`tex_fast_recompile/util.py`); theorems settle the specification claims
about the preamble scanner, the filename escaper, the in-memory pipe,
the compiler instances and the compilation daemon.

Conventions: Python `bytes` are `List Nat`, Python `str` is `List Char`,
raised exceptions are `Except` errors, and file-system / subprocess
nondeterminism is supplied to the daemon model as explicit oracle inputs.
-/

set_option autoImplicit false

deriving instance DecidableEq for Except

namespace TexFastRecompile

/-! ## Preamble scanner (`extract_preamble` in `__main__.py`) -/

/-- A preamble: the byte-lines before the end-of-preamble marker plus the
`implicit` flag (`True` iff the marker was `\begin{document}`).
Mirrors the Python dataclass `Preamble(content, implicit)`; the derived
equality compares both fields, like the dataclass `__eq__`. -/
structure Preamble where
  content : List (List Nat)
  implicit : Bool
  deriving DecidableEq, Repr

/-- Python `bytes.splitlines` recognizes exactly the ASCII line boundaries
`\n`, `\r` and `\r\n`; a trailing terminator produces no final empty line.
This is the worker loop carrying the current (reversed) line. -/
def splitlinesGo : List Nat → List Nat → List (List Nat)
  | [], cur => if cur.isEmpty then [] else [cur.reverse]
  | 13 :: 10 :: rest, cur => cur.reverse :: splitlinesGo rest []
  | 13 :: rest, cur => cur.reverse :: splitlinesGo rest []
  | 10 :: rest, cur => cur.reverse :: splitlinesGo rest []
  | b :: rest, cur => splitlinesGo rest (b :: cur)

/-- `bytes.splitlines()` on a byte string. -/
def splitlinesB (text : List Nat) : List (List Nat) :=
  splitlinesGo text []

/-- The ASCII whitespace bytes removed by Python `bytes.rstrip()`:
space, tab, LF, CR, VT, FF. -/
def isPyWhitespace (b : Nat) : Bool :=
  b = 32 || b = 9 || b = 10 || b = 13 || b = 11 || b = 12

/-- Python `bytes.rstrip()` with no argument. -/
def rstripB (l : List Nat) : List Nat :=
  (l.reverse.dropWhile isPyWhitespace).reverse

/-- Bytes of a pure-ASCII string literal. -/
def strBytes (s : String) : List Nat :=
  s.data.map Char.toNat

/-- Marker 1: the explicit end-of-preamble line. -/
def search_str1 : List Nat := strBytes "\\fastrecompileendpreamble"

/-- Marker 2: the `\csname`-wrapped synonym. -/
def search_str2 : List Nat := strBytes "\\csname fastrecompileendpreamble\\endcsname"

/-- Marker 3: the `\begin{document}` line. -/
def search_str3 : List Nat := strBytes "\\begin\x7bdocument\x7d"

/-- `extract_preamble(text)` from `__main__.py`: split into rstripped lines,
count the three marker lines, and return the preamble prefix or fail with
`NoPreambleError(message)` (modelled as `Except.error message`). -/
def extract_preamble (text : List Nat) : Except String Preamble :=
  let lines := (splitlinesB text).map rstripB
  let count1 := lines.count search_str1
  let count2 := lines.count search_str2
  let count3 := lines.count search_str3
  if count1 + count2 > 1 then
    .error "File contains multiple \\fastrecompileendpreamble lines"
  else if count1 + count2 = 1 then
    let index := if count1 = 1 then lines.indexOf search_str1 else lines.indexOf search_str2
    .ok ⟨lines.take index, false⟩
  else if count3 > 0 then
    let index := lines.indexOf search_str3
    .ok ⟨lines.take index, true⟩
  else
    .error "File contains neither \\fastrecompileendpreamble nor \\begin\x7bdocument\x7d line"

/-! ## Filename escaper (`escape_filename_for_input` in `util.py`) -/

/-- The `str.maketrans` table of `util.py`, as a per-character expansion;
characters outside the table are unchanged. -/
def translate_table (c : Char) : List Char :=
  if c = '#' then "\\string#".data
  else if c = ' ' then "\\space ".data
  else if c = '%' then "\\csname cs_to_str:N\\endcsname\\%".data
  else if c = Char.ofNat 123 then "\\csname cs_to_str:N\\endcsname\\\x7b".data
  else if c = Char.ofNat 125 then "\\csname cs_to_str:N\\endcsname\\\x7d".data
  else if c = '\\' then "\\csname cs_to_str:N\\endcsname\\\\".data
  else [c]

/-- `escape_filename_for_input(s)`: the four `assert` guards (modelled as
`Except.error` with the assertion message) followed by `str.translate`. -/
def escape_filename_for_input (s : List Char) : Except String (List Char) :=
  if s.head? = some '~' then
    .error "Special character ~ may not appear at the beginning of a filename because it may get expanded to HOME."
  else if s.head? = some '|' then
    .error "Special character | may not appear at the beginning of a filename because it will trigger pipe input."
  else if s.contains '$' then
    .error "Special character $ may not appear in filename because it may trigger kpathsea variable expansion."
  else if s.contains (Char.ofNat 34) then
    .error "Double quotes in filename is not supported!"
  else
    .ok (s.map translate_table).flatten

/-- `True` iff an `Except` value is `ok`. -/
def exceptIsOk {ε α : Type} : Except ε α → Bool
  | .ok _ => true
  | .error _ => false

/-! ## In-memory pipe at the byte level (`PipeReader` / `PipeWriter`)

The shared `queue.Queue[Optional[int]]` is a FIFO `List (Option Nat)`;
`none` is the EOF sentinel enqueued by `PipeWriter.close`. -/

/-- The reader's only state: the `_eof_reached` flag. -/
structure PipeReaderState where
  eof_reached : Bool
  deriving DecidableEq, Repr

/-- The writer's only state: the `_closed` flag. -/
structure PipeWriterState where
  closed : Bool
  deriving DecidableEq, Repr

/-- `PipeReader.readinto(b)`.  `bNonEmpty` models the `if not b` guard on the
destination buffer.  The result is the number of bytes read plus the new
reader state and queue; `none` models the call blocking forever on
`queue.get()` when the queue is empty. -/
def PipeReader.readinto (bNonEmpty : Bool) (r : PipeReaderState)
    (q : List (Option Nat)) : Option (Nat × PipeReaderState × List (Option Nat)) :=
  if !bNonEmpty then some (0, r, q)
  else if r.eof_reached then some (0, r, q)
  else
    match q with
    | [] => none
    | value :: rest =>
      match value with
      | none => some (0, ⟨true⟩, rest)
      | some _ => some (1, r, rest)

/-- Byte counts returned by `n` successive `readinto` calls on a full
one-byte buffer (blocking reads cut the run short). -/
def PipeReader.readRun : Nat → PipeReaderState → List (Option Nat) → List Nat
  | 0, _, _ => []
  | n + 1, r, q =>
    match PipeReader.readinto true r q with
    | none => []
    | some (k, r2, q2) => k :: PipeReader.readRun n r2 q2

/-- `PipeWriter.write(buffer)`: enqueue each byte; raises `ValueError`
(modelled as `none`) when the writer is closed. -/
def PipeWriter.write (w : PipeWriterState) (buffer : List Nat)
    (q : List (Option Nat)) : Option (List (Option Nat)) :=
  if w.closed then none
  else some (q ++ buffer.map some)

/-- `PipeWriter.close()`: on the first call enqueue the EOF sentinel and set
`_closed`; later calls return immediately. -/
def PipeWriter.close (w : PipeWriterState) (q : List (Option Nat)) :
    PipeWriterState × List (Option Nat) :=
  if w.closed then (w, q)
  else (⟨true⟩, q ++ [none])

/-! ## Compiler instance (`CompilerInstanceNormal`)

`__enter__` reads and scans the source file; a scanner failure is swallowed
(`except NoPreambleError: pass`) and recorded as an absent snapshot, and no
subprocess is spawned.  `finish` re-scans the file and compares against the
snapshot before anything else.  The engine command construction, the
subprocess spawn and the stdout pump have no bearing on the claims and are
summarized by the `processStarted` flag and the oracle `rc0` (whether the
engine's returncode was 0). -/

/-- The error kinds that can cross the instance/daemon boundary. -/
inductive PyErr where
  | noPreamble
  | preambleChanged
  | fileNotFound
  | assertionFailed
  deriving DecidableEq, Repr

/-- The per-instance state captured by `CompilerInstanceNormal.__enter__`:
`_preamble_at_start` and whether a subprocess was spawned. -/
structure InstState where
  pStart : Option Preamble
  processStarted : Bool
  deriving DecidableEq, Repr

/-- `extract_preamble` result with the `NoPreambleError` message dropped,
as used wherever the caller only catches the exception. -/
def extractOpt (text : List Nat) : Option Preamble :=
  (extract_preamble text).toOption

/-- `CompilerInstanceNormal.__enter__` on a source file that exists with the
given bytes.  The filename is escaped first (its assertion failures
propagate); then the scanner runs with `NoPreambleError` swallowed: on
failure the method returns normally with no snapshot and no subprocess. -/
def CompilerInstanceNormal.enter (filename : List Char) (fileBytes : List Nat) :
    Except String InstState :=
  match escape_filename_for_input filename with
  | .error msg => .error msg
  | .ok _ =>
    match extractOpt fileBytes with
    | none => .ok ⟨none, false⟩
    | some p => .ok ⟨some p, true⟩

/-- The outcome of `CompilerInstanceNormal.finish` as a function of the
snapshot `pStart`, the re-extraction result at finish time, and the oracle
`rc0`.  Mirrors the source order: first `extract_preamble` (its
`NoPreambleError` propagates), then the `!=` comparison against the
snapshot (`None != q` is true, raising `PreambleChangedError`), then the
dead `is None` check, then the resume write and wait returning
`returncode == 0`. -/
def finishOutcome (pStart : Option Preamble) (extractNow : Option Preamble)
    (rc0 : Bool) : Except PyErr Bool :=
  match extractNow with
  | none => .error .noPreamble
  | some q =>
    if pStart ≠ some q then .error .preambleChanged
    else if pStart = none then .error .noPreamble
    else .ok rc0

/-- `CompilerInstanceNormal.finish` reading the file bytes at finish time. -/
def CompilerInstanceNormal.finish (st : InstState) (fileBytesNow : List Nat)
    (rc0 : Bool) : Except PyErr Bool :=
  finishOutcome st.pStart (extractOpt fileBytesNow) rc0

/-- The Python dataclass equality on `Preamble` (compares `content` and
`implicit`). -/
def preambleEq (a b : Preamble) : Bool :=
  a.content == b.content && a.implicit == b.implicit

/-! ## Staged compiler instance (`CompilerInstanceTempOutputDir.finish`)

The temp directory contents are modelled as the list of its direct entries;
`iterdir()` does not recurse, so files inside subdirectories only appear as
the contents of a `dir` entry. -/

/-- A direct entry of the staged temp output directory: a regular file
(name, mtime, data) or a subdirectory with the files it contains. -/
inductive TEntry where
  | file (name : String) (mtime : Nat) (data : Nat)
  | dir (name : String) (sub : List (String × Nat × Nat))
  deriving DecidableEq, Repr

/-- `Path.is_file()` on a direct entry. -/
def TEntry.isRegularFile : TEntry → Bool
  | .file _ _ _ => true
  | .dir _ _ => false

/-- The real output directory as a list of (name, mtime, data) files. -/
structure OutDir where
  files : List (String × Nat × Nat)
  deriving DecidableEq, Repr

/-- `shutil.copy2(file, output_directory)`: copy data and preserve the
modification time. -/
def copy2 (name : String) (mtime data : Nat) (out : OutDir) : OutDir :=
  ⟨out.files ++ [(name, mtime, data)]⟩

/-- `CompilerInstanceTempOutputDir.finish`: delegate to the wrapped
instance (whose outcome is `inner`; an exception propagates before the
mirror loop runs), then copy every direct regular file of the temp
directory into the real output directory with `shutil.copy2`. -/
def CompilerInstanceTempOutputDir.finish (inner : Except PyErr Bool)
    (tmpEntries : List TEntry) (out : OutDir) : OutDir × Except PyErr Bool :=
  match inner with
  | .error e => (out, .error e)
  | .ok result =>
    let out2 := tmpEntries.foldl (fun o ent =>
      match ent with
      | .file n m d => copy2 n m d o
      | .dir _ _ => o) out
    (out2, .ok result)

/-! ## Compilation daemon (`CompilationDaemon`)

The daemon's file-system and subprocess interactions are oracle inputs:
each recursive pass of `_recompile_preamble_not_changed` consumes one
`IterEnv` describing what the external world answered during that pass
(scanner results, engine returncode, log / PDF existence).  The trace is
finite, so an unboundedly rerunning chain is modelled by the result
`none` ("the call never returns").  The daemon's output pipe is the
per-iteration `PipeWriter`; messages are abstracted to `Msg` tokens, and
the writer's queue lives in the daemon state (its `close` happens exactly
once, in the `finally` of `recompile`). -/

/-- Tokens written to the daemon's output pipe. -/
inductive Msg where
  /-- "Some preamble-watch file changed, recompiling." -/
  | preambleWatchChanged
  /-- `_print_no_preamble_error`: "! message.". -/
  | noPreambleReport
  /-- "Preamble changed, recompiling." -/
  | preambleChangedNotice
  /-- "Rerunning." -/
  | rerunning
  /-- Engine stdout bytes pumped through `copy_stream`. -/
  | engineOutput
  deriving DecidableEq, Repr

/-- A caller-visible output pipe: the queue contents (`none` is the EOF
sentinel, as in `PipeWriter`) plus the writer's closed flag. -/
structure DPipe where
  q : List (Option Msg)
  closed : Bool
  deriving DecidableEq, Repr

/-- The fresh pipe created by `create_pipe()`. -/
def freshDPipe : DPipe := ⟨[], false⟩

/-- The configuration fields of `args` that the modelled control flow
reads: `precompile_preamble`, and whether `--copy-output` / `--copy-log`
were given. -/
structure Config where
  precompile : Bool
  copyOutput : Bool
  copyLog : Bool
  deriving DecidableEq, Repr

/-- Oracle data consumed by one `_prepare_compiler` call: the scanner
result at the new main instance's `__enter__`, and (when a format must be
precompiled) the scanner results at the precompile instance's enter and
finish plus its returncode. -/
structure PrepEnv where
  mainEnter : Option Preamble
  precompEnter : Option Preamble
  precompFinish : Option Preamble
  precompRc0 : Bool
  deriving DecidableEq, Repr

/-- Oracle data for the precompile run performed directly by
`_recompile_preamble_changed`. -/
structure ChangedEnv where
  precompEnter : Option Preamble
  precompFinish : Option Preamble
  precompRc0 : Bool
  deriving DecidableEq, Repr

/-- Oracle data consumed by one pass of
`_recompile_preamble_not_changed`. -/
structure IterEnv where
  /-- Used by the pass's initial `_prepare_compiler(quiet=False)` when no
  instance is parked. -/
  prep : PrepEnv
  /-- Scanner result when `finish()` re-reads the file. -/
  finishExtract : Option Preamble
  /-- Whether the engine's returncode was 0. -/
  rc0 : Bool
  /-- Whether `<output-directory>/<jobname>.log` exists when read. -/
  logExists : Bool
  /-- Whether the log bytes contain one of the rerun substrings. -/
  logHasRerun : Bool
  /-- Whether `<output-directory>/<jobname>.pdf` exists. -/
  pdfExists : Bool
  /-- Used by the trailing `_prepare_compiler(quiet=True)`. -/
  prepEnd : PrepEnv
  /-- Used if this pass's `finish()` raises `PreambleChangedError`. -/
  changedEnv : ChangedEnv
  deriving DecidableEq, Repr

/-- The daemon state threaded through one `recompile` call: the parked
instance (with the preamble snapshot its enter captured), whether
`<jobname>.fmt` exists in the format temp dir, and the current output
pipe's queue. -/
structure DaemonState where
  compiler : Option (Option Preamble)
  fmtPresent : Bool
  pipeq : List (Option Msg)
  deriving DecidableEq, Repr

/-- `PipeWriter.write` on the daemon pipe (never called after its close). -/
def writePipe (s : DaemonState) (m : Msg) : DaemonState :=
  {s with pipeq := s.pipeq ++ [some m]}

/-- `_stop_compiler`: `assert self._compiler is not None` (an absent
instance raises `AssertionError`), then dispose it. -/
def stop_compiler (s : DaemonState) : DaemonState × Except PyErr Unit :=
  match s.compiler with
  | none => (s, .error .assertionFailed)
  | some _ => ({s with compiler := none}, .ok ())

/-- `_precompile_preamble(quiet)`: run a precompile instance to build the
format.  Its `finish()` outcome is `finishOutcome` of the oracle data; on
`NoPreambleError` the message is printed to the pipe and, when not quiet,
the exception is re-raised; a `PreambleChangedError` always propagates.
When not quiet, `copy_stream` drains the instance's stdout into the
daemon pipe (on the exception paths the drain never completes, so no
token is appended). -/
def precompile_preamble (quiet : Bool) (pEnter pFinish : Option Preamble)
    (rc0 : Bool) (s : DaemonState) : DaemonState × Except PyErr Bool :=
  match finishOutcome pEnter pFinish rc0 with
  | .error .noPreamble =>
    let s1 := writePipe s .noPreambleReport
    if quiet then (s1, .ok false) else (s1, .error .noPreamble)
  | .error e => (s, .error e)
  | .ok return0 =>
    ((if quiet then s else writePipe s .engineOutput), .ok return0)

/-- `_prepare_compiler(quiet)`: precompile the format first if needed
(failure returns `False`, exceptions propagate; a successful run leaves
`<jobname>.fmt` on disk, which the source `assert`s), then construct the
new instance and `__enter__` it (which never raises here: the source file
exists and the filename was validated at startup). -/
def prepare_compiler (cfg : Config) (quiet : Bool) (pe : PrepEnv)
    (s : DaemonState) : DaemonState × Except PyErr Bool :=
  if cfg.precompile && !s.fmtPresent then
    match precompile_preamble quiet pe.precompEnter pe.precompFinish pe.precompRc0 s with
    | (s1, .error e) => (s1, .error e)
    | (s1, .ok false) => (s1, .ok false)
    | (s1, .ok true) =>
      ({s1 with fmtPresent := true, compiler := some pe.mainEnter}, .ok true)
  else
    ({s with compiler := some pe.mainEnter}, .ok true)

/-- Lines 801–804 of `_recompile_preamble_not_changed`: after the result
is known, stop the current instance and quietly pre-park the next one
(whose boolean result is discarded, but whose exceptions propagate). -/
def finish_tail (cfg : Config) (pe : PrepEnv) (result : Bool)
    (s : DaemonState) : DaemonState × Except PyErr Bool :=
  match stop_compiler s with
  | (s1, .error e) => (s1, .error e)
  | (s1, .ok _) =>
    match prepare_compiler cfg true pe s1 with
    | (s2, .error e) => (s2, .error e)
    | (s2, .ok _) => (s2, .ok result)

/-- The prologue of `CompilationDaemon._recompile_preamble_changed` up to
its tail call into the non-preamble path: unlink the stale format, stop
the parked instance (`assert`ing it exists), and rebuild the format when
precompiling.  `Sum.inl` is an early return or a propagating exception
(note: a `NoPreambleError` here is re-raised by
`_precompile_preamble(quiet=False)` and nothing in this method catches
it); `Sum.inr` falls through. -/
def changed_prologue (cfg : Config) (ce : ChangedEnv) (s : DaemonState) :
    (DaemonState × Except PyErr Bool) ⊕ DaemonState :=
  let s0 := if cfg.precompile then {s with fmtPresent := false} else s
  match stop_compiler s0 with
  | (s1, .error e) => Sum.inl (s1, .error e)
  | (s1, .ok _) =>
    if cfg.precompile && !s1.fmtPresent then
      match precompile_preamble false ce.precompEnter ce.precompFinish ce.precompRc0 s1 with
      | (s2, .error e) => Sum.inl (s2, .error e)
      | (s2, .ok false) => Sum.inl (s2, .ok false)
      | (s2, .ok true) => Sum.inr {s2 with fmtPresent := true}
    else
      Sum.inr s1

/-- `CompilationDaemon._recompile_preamble_not_changed`, one oracle record
per pass.  `none` means the trace ran out, i.e. the call never returns.
The `PreambleChangedError` handler inlines
`_recompile_preamble_changed` (= `changed_prologue` followed by the tail
call back into this method). -/
def recompile_preamble_not_changed (cfg : Config) : List IterEnv →
    DaemonState → Option (DaemonState × Except PyErr Bool)
  | [], _ => none
  | e :: rest, s =>
    -- if self._compiler is None: prepare, catching only NoPreambleError
    -- (the handler prints the message again and returns False)
    let step1 : (DaemonState × Except PyErr Bool) ⊕ DaemonState :=
      match s.compiler with
      | some _ => Sum.inr s
      | none =>
        match prepare_compiler cfg false e.prep s with
        | (s1, .ok true) => Sum.inr s1
        | (s1, .ok false) => Sum.inl (s1, .ok false)
        | (s1, .error .noPreamble) => Sum.inl (writePipe s1 .noPreambleReport, .ok false)
        | (s1, .error err) => Sum.inl (s1, .error err)
    match step1 with
    | Sum.inl r => some r
    | Sum.inr s1 =>
      match s1.compiler with
      | none => some (s1, .error .assertionFailed) -- assert self._compiler is not None
      | some pStart =>
        -- with copy_stream(...): the engine stdout drains into the pipe
        let s2 := writePipe s1 .engineOutput
        match finishOutcome pStart e.finishExtract e.rc0 with
        | .error .noPreamble =>
          match stop_compiler s2 with
          | (s3, .error err) => some (s3, .error err)
          | (s3, .ok _) => some (writePipe s3 .noPreambleReport, .ok false)
        | .error .preambleChanged =>
          match changed_prologue cfg e.changedEnv
              (writePipe s2 .preambleChangedNotice) with
          | Sum.inl r => some r
          | Sum.inr s3 => recompile_preamble_not_changed cfg rest s3
        | .error err => some (s2, .error err)
        | .ok return0 =>
          -- if args.copy_output is not None: shutil.copyfile(pdf, ...)
          -- with FileNotFoundError swallowed: no observable effect here.
          -- if args.copy_log is not None: shutil.copyfile(log, ...)
          -- raises FileNotFoundError when the log file is absent.
          if cfg.copyLog && !e.logExists then some (s2, .error .fileNotFound)
          else
            -- log_text = (dir/jobname.log).read_bytes(): same failure mode
            if !e.logExists then some (s2, .error .fileNotFound)
            else if e.logHasRerun then
              let s3 := writePipe s2 .rerunning
              match stop_compiler s3 with
              | (s4, .error err) => some (s4, .error err)
              | (s4, .ok _) =>
                match recompile_preamble_not_changed cfg rest s4 with
                | none => none
                | some (s5, .error err) => some (s5, .error err)
                | some (s5, .ok result) => some (finish_tail cfg e.prepEnd result s5)
            else
              some (finish_tail cfg e.prepEnd (return0 && e.pdfExists) s2)

/-- `CompilationDaemon._recompile_preamble_changed`: the prologue, then
the tail call into the non-preamble path. -/
def recompile_preamble_changed (cfg : Config) (ce : ChangedEnv)
    (trace : List IterEnv) (s : DaemonState) :
    Option (DaemonState × Except PyErr Bool) :=
  match changed_prologue cfg ce s with
  | Sum.inl r => some r
  | Sum.inr s1 => recompile_preamble_not_changed cfg trace s1

/-- `CompilationDaemon.recompile(recompile_preamble)`: the try/finally
around the two paths.  The `finally` closes the current pipe's writer
(enqueueing the EOF sentinel; this writer is closed nowhere else, so the
guard in `PipeWriter.close` passes); the fresh-pipe swap on the next line
runs only when no exception propagates.  The returned triple is (result
or `none` for a never-returning call, the old pipe as the caller sees it,
the post-call daemon state). -/
def recompile (cfg : Config) (ce : ChangedEnv) (recompilePreamble : Bool)
    (trace : List IterEnv) (s : DaemonState) :
    Option (Except PyErr Bool) × DPipe × DaemonState :=
  let inner :=
    if recompilePreamble then
      recompile_preamble_changed cfg ce trace (writePipe s .preambleWatchChanged)
    else
      recompile_preamble_not_changed cfg trace s
  match inner with
  | none => (none, ⟨s.pipeq, false⟩, s)
  | some (s1, res) =>
    let oldPipe : DPipe := ⟨s1.pipeq ++ [none], true⟩
    match res with
    | .error e => (some (.error e), oldPipe, {s1 with pipeq := oldPipe.q})
    | .ok b => (some (.ok b), oldPipe, {s1 with pipeq := []})

/-- The preamble snapshot the first pass of a trace will compare against:
the parked instance's snapshot, or the one captured by the prepare step
the pass begins with. -/
def eff_pstart (s : DaemonState) (e : IterEnv) : Option Preamble :=
  match s.compiler with
  | some p => p
  | none => e.prep.mainEnter

/-- A rerun chain in which every pass's `finish()` succeeds (the snapshot
and the re-extraction agree and are present) and every log read finds the
log file; the chain follows `logHasRerun` and must end inside the
trace. -/
def chain_ok : Option Preamble → List IterEnv → Bool
  | _, [] => false
  | p, e :: rest =>
    p == e.finishExtract && p.isSome && e.logExists &&
      (if e.logHasRerun then
        match rest with
        | [] => false
        | e2 :: _ => chain_ok e2.prep.mainEnter rest
      else true)

/-- The pass at which a rerun chain stops (the first with no rerun hint). -/
def final_iter : List IterEnv → Option IterEnv
  | [] => none
  | e :: rest => if e.logHasRerun then final_iter rest else some e

/-- How many rerun passes a chain takes before its final pass. -/
def num_reruns : List IterEnv → Nat
  | [] => 0
  | e :: rest => if e.logHasRerun then num_reruns rest + 1 else 0

/-- The number of "Rerunning." messages in a pipe queue. -/
def countRerunMsgs (q : List (Option Msg)) : Nat :=
  q.count (some Msg.rerunning)

/-! ## Sample data for concrete runs -/

/-- A sample preamble (that of `\begin{document}` on the first line). -/
def samplePre : Preamble := ⟨[], true⟩

/-- A prepare-step oracle whose scanner finds `samplePre`. -/
def samplePrep : PrepEnv := ⟨some samplePre, none, none, true⟩

/-- A `_recompile_preamble_changed` oracle (unused when not precompiling). -/
def sampleCE : ChangedEnv := ⟨none, none, true⟩

/-- The plain configuration: no precompile, no copy options. -/
def sampleCfg : Config := ⟨false, false, false⟩

/-- A daemon state with a parked instance holding `samplePre`. -/
def sampleState : DaemonState := ⟨some (some samplePre), false, []⟩

/-- A pass in which everything succeeds and no rerun is requested. -/
def sampleIterOk : IterEnv := ⟨samplePrep, some samplePre, true, true, false, true, samplePrep, sampleCE⟩

/-- A pass that succeeds but whose log requests a rerun. -/
def sampleIterRerun : IterEnv := ⟨samplePrep, some samplePre, true, true, true, true, samplePrep, sampleCE⟩

/-- A pass whose `finish()` succeeds but whose log file is missing. -/
def sampleIterNoLog : IterEnv := ⟨samplePrep, some samplePre, true, false, false, true, samplePrep, sampleCE⟩

/-! ## Helper lemmas -/

theorem take_indexOf_eq_takeWhile {α : Type} [BEq α] [LawfulBEq α] (a : α) (l : List α) :
    l.take (l.indexOf a) = l.takeWhile (fun x => !(x == a)) := by
  induction l with
  | nil => rfl
  | cons b l ih =>
    simp only [List.indexOf, List.findIdx_cons, List.takeWhile_cons]
    cases h : b == a with
    | true => simp
    | false => simpa [List.indexOf] using ih

theorem takeWhile_congr_of_mem {α : Type} {p q : α → Bool} {l : List α}
    (h : ∀ x ∈ l, p x = q x) : l.takeWhile p = l.takeWhile q := by
  induction l with
  | nil => rfl
  | cons b l ih =>
    have hb := h b (List.mem_cons_self b l)
    simp only [List.takeWhile_cons, hb]
    cases hq : q b
    · rfl
    · rw [ih fun x hx => h x (List.mem_cons_of_mem b hx)]

theorem preambleEq_eq_true_iff (a b : Preamble) : preambleEq a b = true ↔ a = b := by
  cases a; cases b
  simp [preambleEq, Preamble.mk.injEq]

theorem finishOutcome_self (q : Preamble) (rc0 : Bool) :
    finishOutcome (some q) (some q) rc0 = .ok rc0 := by
  simp [finishOutcome]

theorem prepare_compiler_skip (cfg : Config) (quiet : Bool) (pe : PrepEnv) (s : DaemonState)
    (h : (cfg.precompile && !s.fmtPresent) = false) :
    prepare_compiler cfg quiet pe s = ({s with compiler := some pe.mainEnter}, .ok true) := by
  simp [prepare_compiler, h]

theorem stop_compiler_some (s : DaemonState) (p : Option Preamble) (h : s.compiler = some p) :
    stop_compiler s = ({s with compiler := none}, .ok ()) := by
  simp [stop_compiler, h]

theorem finish_tail_skip (cfg : Config) (pe : PrepEnv) (result : Bool) (s : DaemonState)
    (p : Option Preamble) (hc : s.compiler = some p)
    (hf : (cfg.precompile && !s.fmtPresent) = false) :
    finish_tail cfg pe result s = ({s with compiler := some pe.mainEnter}, .ok result) := by
  simp [finish_tail, stop_compiler_some s p hc, prepare_compiler_skip, hf]

theorem mirror_foldl_eq (entries : List TEntry) (out : OutDir) :
    entries.foldl (fun o ent => match ent with
      | .file n m d => copy2 n m d o
      | .dir _ _ => o) out =
    ⟨out.files ++ entries.filterMap (fun ent => match ent with
      | .file n m d => some (n, m, d)
      | .dir _ _ => none)⟩ := by
  induction entries generalizing out with
  | nil => cases out; simp
  | cons ent rest ih =>
    cases ent with
    | file n m d =>
      rw [List.foldl_cons, ih]
      simp [copy2, List.filterMap_cons]
    | dir n sub =>
      rw [List.foldl_cons, ih]
      simp [List.filterMap_cons]


theorem changed_prologue_no_precompile (cfg : Config) (ce : ChangedEnv) (s : DaemonState)
    (hpre : cfg.precompile = false) (p : Option Preamble) (hc : s.compiler = some p) :
    changed_prologue cfg ce s = Sum.inr {s with compiler := none} := by
  simp [changed_prologue, hpre, stop_compiler, hc]

theorem not_changed_prepare_first (cfg : Config) (e : IterEnv) (rest : List IterEnv)
    (s : DaemonState) (hc : s.compiler = none)
    (hf : (cfg.precompile && !s.fmtPresent) = false) :
    recompile_preamble_not_changed cfg (e :: rest) s =
      recompile_preamble_not_changed cfg (e :: rest)
        {s with compiler := some e.prep.mainEnter} := by
  simp only [recompile_preamble_not_changed, hc, prepare_compiler_skip cfg false e.prep s hf]

theorem precompile_skip_cond (cfg : Config) (s : DaemonState)
    (hf : cfg.precompile = true → s.fmtPresent = true) :
    (cfg.precompile && !s.fmtPresent) = false := by
  cases hcp : cfg.precompile
  · simp
  · simp [hf hcp]

/-- One pass of the non-preamble path, starting from a parked instance,
when `finish()` encounters no NoPreamble error: every outcome is reported
via the return value (never a propagating exception), and the post-state
has a parked instance. -/
theorem not_changed_some_compiler_no_error (cfg : Config) (hpre : cfg.precompile = false)
    (e : IterEnv) (rest : List IterEnv) (q : Preamble) (hq : e.finishExtract = some q)
    (hlog : e.logExists = true)
    (hP : ∀ s s2 res, recompile_preamble_not_changed cfg rest s = some (s2, res) →
      (∃ b, res = .ok b) ∧ s2.compiler.isSome = true) :
    ∀ (s1 : DaemonState) (p : Option Preamble), s1.compiler = some p →
      ∀ s2 res, recompile_preamble_not_changed cfg (e :: rest) s1 = some (s2, res) →
      (∃ b, res = .ok b) ∧ s2.compiler.isSome = true := by
  intro s1 p hc s2 res h
  simp only [recompile_preamble_not_changed] at h
  simp only [hc] at h
  rw [hq] at h
  by_cases hpq : p = some q
  · subst hpq
    rw [finishOutcome_self] at h
    simp only [hlog, Bool.not_true, Bool.and_false, Bool.false_eq_true, if_false] at h
    by_cases hrr : e.logHasRerun = true
    · rw [if_pos hrr] at h
      simp only [stop_compiler_some (writePipe (writePipe s1 Msg.engineOutput) Msg.rerunning)
        (some q) (by simp [writePipe, hc])] at h
      split at h
      · exact absurd h (by simp)
      · rename_i s5 err heq
        obtain ⟨⟨b5, hb5⟩, _⟩ := hP _ _ _ heq
        simp at hb5
      · rename_i s5 result heq
        obtain ⟨⟨b5, hb5⟩, hsome5⟩ := hP _ _ _ heq
        rcases Option.isSome_iff_exists.mp hsome5 with ⟨p5, hp5⟩
        rw [finish_tail_skip cfg e.prepEnd result s5 p5 hp5 (by simp [hpre])] at h
        simp only [Option.some.injEq, Prod.mk.injEq] at h
        obtain ⟨h1, h2⟩ := h
        subst h1 h2
        exact ⟨⟨result, rfl⟩, by simp⟩
    · rw [if_neg hrr] at h
      rw [finish_tail_skip cfg e.prepEnd (e.rc0 && e.pdfExists) (writePipe s1 Msg.engineOutput)
        (some q) (by simp [writePipe, hc]) (by simp [hpre])] at h
      simp only [Option.some.injEq, Prod.mk.injEq] at h
      obtain ⟨h1, h2⟩ := h
      subst h1 h2
      exact ⟨⟨_, rfl⟩, by simp⟩
  · have hout : finishOutcome p (some q) e.rc0 = .error .preambleChanged := by
      simp [finishOutcome, hpq]
    rw [hout] at h
    simp only [changed_prologue_no_precompile cfg e.changedEnv
      (writePipe (writePipe s1 Msg.engineOutput) Msg.preambleChangedNotice) hpre p
      (by simp [writePipe, hc])] at h
    exact hP _ _ _ h

/-- Under no-precompile configurations, with every log present and every
`finish()`-time scan succeeding, neither daemon path returns a propagating
exception, and the post-state has a parked instance. -/
theorem daemon_no_error_aux (cfg : Config) (hpre : cfg.precompile = false) :
    ∀ trace : List IterEnv,
      (∀ s s2 res, (∀ x ∈ trace, x.logExists = true ∧ x.finishExtract.isSome = true) →
        recompile_preamble_not_changed cfg trace s = some (s2, res) →
        (∃ b, res = .ok b) ∧ s2.compiler.isSome = true) ∧
      (∀ ce s s2 res, s.compiler.isSome = true →
        (∀ x ∈ trace, x.logExists = true ∧ x.finishExtract.isSome = true) →
        recompile_preamble_changed cfg ce trace s = some (s2, res) →
        (∃ b, res = .ok b) ∧ s2.compiler.isSome = true) := by
  intro trace
  induction trace with
  | nil =>
    constructor
    · intro s s2 res _ h
      simp [recompile_preamble_not_changed] at h
    · intro ce s s2 res hcs _ h
      rcases Option.isSome_iff_exists.mp hcs with ⟨p, hp⟩
      simp only [recompile_preamble_changed,
        changed_prologue_no_precompile cfg ce s hpre p hp,
        recompile_preamble_not_changed] at h
      exact absurd h (by simp)
  | cons e rest ih =>
    have hNC : ∀ s s2 res,
        (∀ x ∈ e :: rest, x.logExists = true ∧ x.finishExtract.isSome = true) →
        recompile_preamble_not_changed cfg (e :: rest) s = some (s2, res) →
        (∃ b, res = .ok b) ∧ s2.compiler.isSome = true := by
      intro s s2 res htr h
      have he := htr e (List.mem_cons_self e rest)
      have hrest : ∀ x ∈ rest, x.logExists = true ∧ x.finishExtract.isSome = true :=
        fun x hx => htr x (List.mem_cons_of_mem e hx)
      rcases Option.isSome_iff_exists.mp he.2 with ⟨q, hq⟩
      have hP : ∀ s s2 res, recompile_preamble_not_changed cfg rest s = some (s2, res) →
          (∃ b, res = .ok b) ∧ s2.compiler.isSome = true :=
        fun s s2 res hra => ih.1 s s2 res hrest hra
      cases hcs : s.compiler with
      | some p =>
        exact not_changed_some_compiler_no_error cfg hpre e rest q hq he.1 hP s p hcs s2 res h
      | none =>
        rw [not_changed_prepare_first cfg e rest s hcs (by simp [hpre])] at h
        exact not_changed_some_compiler_no_error cfg hpre e rest q hq he.1 hP _
          e.prep.mainEnter (by simp) s2 res h
    refine ⟨hNC, ?_⟩
    intro ce s s2 res hcs htr h
    rcases Option.isSome_iff_exists.mp hcs with ⟨p, hp⟩
    simp only [recompile_preamble_changed,
      changed_prologue_no_precompile cfg ce s hpre p hp] at h
    exact hNC _ _ _ htr h

/-- One successful pass with a parked instance and no rerun hint. -/
theorem not_changed_pass_ok (cfg : Config) (e : IterEnv) (rest : List IterEnv)
    (s1 : DaemonState) (q : Preamble)
    (hc : s1.compiler = some (some q)) (hq : e.finishExtract = some q)
    (hlog : e.logExists = true) (hrr : e.logHasRerun = false)
    (hf : (cfg.precompile && !s1.fmtPresent) = false) :
    recompile_preamble_not_changed cfg (e :: rest) s1 =
      some (⟨some e.prepEnd.mainEnter, s1.fmtPresent, s1.pipeq ++ [some .engineOutput]⟩,
        .ok (e.rc0 && e.pdfExists)) := by
  simp only [recompile_preamble_not_changed, hc]
  rw [hq, finishOutcome_self]
  simp only [hlog, hrr, Bool.not_true, Bool.and_false, Bool.false_eq_true, if_false]
  rw [finish_tail_skip cfg e.prepEnd (e.rc0 && e.pdfExists) (writePipe s1 Msg.engineOutput)
    (some q) (by simp [writePipe, hc]) (by simp only [writePipe]; exact hf)]
  simp [writePipe]

/-- One successful pass with a parked instance whose log requests a rerun:
print "Rerunning.", dispose the instance, and recurse. -/
theorem not_changed_pass_rerun (cfg : Config) (e : IterEnv) (rest : List IterEnv)
    (s1 : DaemonState) (q : Preamble)
    (hc : s1.compiler = some (some q)) (hq : e.finishExtract = some q)
    (hlog : e.logExists = true) (hrr : e.logHasRerun = true) :
    recompile_preamble_not_changed cfg (e :: rest) s1 =
      (match recompile_preamble_not_changed cfg rest
          ⟨none, s1.fmtPresent, s1.pipeq ++ [some .engineOutput, some .rerunning]⟩ with
       | none => none
       | some (s5, .error err) => some (s5, .error err)
       | some (s5, .ok result) => some (finish_tail cfg e.prepEnd result s5)) := by
  simp only [recompile_preamble_not_changed, hc]
  rw [hq, finishOutcome_self]
  simp only [hlog, hrr, Bool.not_true, Bool.and_false, Bool.false_eq_true, if_false, if_true]
  simp only [stop_compiler_some (writePipe (writePipe s1 Msg.engineOutput) Msg.rerunning)
    (some q) (by simp [writePipe, hc])]
  simp [writePipe]

/-- A rerun chain whose every pass succeeds runs to its final pass; the
result is the final pass's `returncode == 0 && pdf-exists`, and exactly
one "Rerunning." message is written per rerun taken. -/
theorem chain_run (cfg : Config) :
    ∀ (rest : List IterEnv) (e : IterEnv) (s : DaemonState) (ef : IterEnv),
      (cfg.precompile = true → s.fmtPresent = true) →
      chain_ok (eff_pstart s e) (e :: rest) = true →
      final_iter (e :: rest) = some ef →
      ∃ s2 : DaemonState,
        recompile_preamble_not_changed cfg (e :: rest) s =
          some (s2, .ok (ef.rc0 && ef.pdfExists)) ∧
        countRerunMsgs s2.pipeq = countRerunMsgs s.pipeq + num_reruns (e :: rest) ∧
        s2.compiler.isSome = true ∧
        (cfg.precompile = true → s2.fmtPresent = true) := by
  intro rest
  induction rest with
  | nil =>
    intro e s ef hfmt hchain hfinal
    simp only [chain_ok, Bool.and_eq_true] at hchain
    obtain ⟨⟨⟨hbeq, hsome⟩, hlg⟩, hif⟩ := hchain
    rcases Option.isSome_iff_exists.mp hsome with ⟨q, hq2⟩
    have hqe : e.finishExtract = some q := by
      have := (beq_iff_eq ..).mp hbeq
      rw [← this, hq2]
    have hrr : e.logHasRerun = false := by
      by_contra hx
      rw [Bool.not_eq_false] at hx
      rw [if_pos hx] at hif
      simp at hif
    have hef : ef = e := by
      simp only [final_iter, hrr, Bool.false_eq_true, if_false, Option.some.injEq] at hfinal
      exact hfinal.symm
    rw [hef]
    cases hcs : s.compiler with
    | some pp =>
      have hpp : pp = some q := by
        simp only [eff_pstart, hcs] at hq2
        exact hq2
      subst hpp
      refine ⟨_, not_changed_pass_ok cfg e [] s q hcs hqe hlg hrr
        (precompile_skip_cond cfg s hfmt), ?_, ?_, ?_⟩
      · simp [countRerunMsgs, num_reruns, hrr, List.count_append]
      · simp
      · intro hcp
        exact hfmt hcp
    | none =>
      have hpp : e.prep.mainEnter = some q := by
        simp only [eff_pstart, hcs] at hq2
        exact hq2
      rw [not_changed_prepare_first cfg e [] s hcs (precompile_skip_cond cfg s hfmt)]
      refine ⟨_, not_changed_pass_ok cfg e []
        {s with compiler := some e.prep.mainEnter} q (by simp [hpp]) hqe hlg hrr
        (by simpa using precompile_skip_cond cfg s hfmt), ?_, ?_, ?_⟩
      · simp [countRerunMsgs, num_reruns, hrr, List.count_append]
      · simp
      · intro hcp
        exact hfmt hcp
  | cons e2 rest2 ih =>
    intro e s ef hfmt hchain hfinal
    simp only [chain_ok, Bool.and_eq_true] at hchain
    obtain ⟨⟨⟨hbeq, hsome⟩, hlg⟩, hif⟩ := hchain
    rcases Option.isSome_iff_exists.mp hsome with ⟨q, hq2⟩
    have hqe : e.finishExtract = some q := by
      have := (beq_iff_eq ..).mp hbeq
      rw [← this, hq2]
    cases hrr : e.logHasRerun with
    | false =>
      have hef : ef = e := by
        simp only [final_iter, hrr, Bool.false_eq_true, if_false, Option.some.injEq] at hfinal
        exact hfinal.symm
      rw [hef]
      cases hcs : s.compiler with
      | some pp =>
        have hpp : pp = some q := by
          simp only [eff_pstart, hcs] at hq2
          exact hq2
        subst hpp
        refine ⟨_, not_changed_pass_ok cfg e (e2 :: rest2) s q hcs hqe hlg hrr
          (precompile_skip_cond cfg s hfmt), ?_, ?_, ?_⟩
        · simp [countRerunMsgs, num_reruns, hrr, List.count_append]
        · simp
        · intro hcp
          exact hfmt hcp
      | none =>
        have hpp : e.prep.mainEnter = some q := by
          simp only [eff_pstart, hcs] at hq2
          exact hq2
        rw [not_changed_prepare_first cfg e (e2 :: rest2) s hcs
          (precompile_skip_cond cfg s hfmt)]
        refine ⟨_, not_changed_pass_ok cfg e (e2 :: rest2)
          {s with compiler := some e.prep.mainEnter} q (by simp [hpp]) hqe hlg hrr
          (by simpa using precompile_skip_cond cfg s hfmt), ?_, ?_, ?_⟩
        · simp [countRerunMsgs, num_reruns, hrr, List.count_append]
        · simp
        · intro hcp
          exact hfmt hcp
    | true =>
      rw [if_pos hrr] at hif
      have hfinal2 : final_iter (e2 :: rest2) = some ef := by
        simpa [final_iter, hrr] using hfinal
      have hstep : ∀ s1 : DaemonState, s1.compiler = some (some q) →
          s1.fmtPresent = s.fmtPresent → s1.pipeq = s.pipeq →
          ∃ s2 : DaemonState,
            recompile_preamble_not_changed cfg (e :: e2 :: rest2) s1 =
              some (s2, .ok (ef.rc0 && ef.pdfExists)) ∧
            countRerunMsgs s2.pipeq = countRerunMsgs s.pipeq + num_reruns (e :: e2 :: rest2) ∧
            s2.compiler.isSome = true ∧
            (cfg.precompile = true → s2.fmtPresent = true) := by
        intro s1 hc1 hfmt1 hpq1
        rw [not_changed_pass_rerun cfg e (e2 :: rest2) s1 q hc1 hqe hlg hrr]
        obtain ⟨s5, hrun5, hcount5, hsome5, hfmt5⟩ := ih e2
          ⟨none, s1.fmtPresent, s1.pipeq ++ [some .engineOutput, some .rerunning]⟩ ef
          (by intro hcp; simpa [hfmt1] using hfmt hcp)
          (by exact hif) hfinal2
        simp only [hrun5]
        rcases Option.isSome_iff_exists.mp hsome5 with ⟨p5, hp5⟩
        simp only [finish_tail_skip cfg e.prepEnd (ef.rc0 && ef.pdfExists) s5 p5 hp5
          (precompile_skip_cond cfg s5 hfmt5)]
        refine ⟨_, rfl, ?_, ?_, ?_⟩
        · simp only [hcount5]
          simp [countRerunMsgs, num_reruns, hrr, List.count_append, hpq1]
          omega
        · simp
        · intro hcp
          simpa using hfmt5 hcp
      cases hcs : s.compiler with
      | some pp =>
        have hpp : pp = some q := by
          simp only [eff_pstart, hcs] at hq2
          exact hq2
        subst hpp
        exact hstep s hcs rfl rfl
      | none =>
        have hpp : e.prep.mainEnter = some q := by
          simp only [eff_pstart, hcs] at hq2
          exact hq2
        rw [not_changed_prepare_first cfg e (e2 :: rest2) s hcs
          (precompile_skip_cond cfg s hfmt)]
        exact hstep {s with compiler := some e.prep.mainEnter} (by simp [hpp]) rfl rfl

/-! ## Claim theorems -/

/-- C1: for every input byte string, `extract_preamble` splits it into
newline-separated trimmed byte-lines and: if the number of lines equal to
the explicit marker plus the number equal to the `\csname` marker exceeds
1, it fails with NoPreamble; if that sum equals 1 it returns the prefix of
lines before the first such marker line with `implicit = false`
(regardless of whether a `\begin{document}` line appears elsewhere);
otherwise, if at least one line equals `\begin{document}`, it returns the
prefix before the first such line with `implicit = true`; otherwise it
fails with NoPreamble. -/
theorem extract_preamble_characterization (text : List Nat) :
    (((splitlinesB text).map rstripB).count search_str1 +
        ((splitlinesB text).map rstripB).count search_str2 > 1 →
      ∃ m, extract_preamble text = .error m) ∧
    (((splitlinesB text).map rstripB).count search_str1 +
        ((splitlinesB text).map rstripB).count search_str2 = 1 →
      extract_preamble text = .ok ⟨((splitlinesB text).map rstripB).takeWhile
        (fun l => !(l == search_str1 || l == search_str2)), false⟩) ∧
    (((splitlinesB text).map rstripB).count search_str1 = 0 →
      ((splitlinesB text).map rstripB).count search_str2 = 0 →
      0 < ((splitlinesB text).map rstripB).count search_str3 →
      extract_preamble text = .ok ⟨((splitlinesB text).map rstripB).takeWhile
        (fun l => !(l == search_str3)), true⟩) ∧
    (((splitlinesB text).map rstripB).count search_str1 = 0 →
      ((splitlinesB text).map rstripB).count search_str2 = 0 →
      ((splitlinesB text).map rstripB).count search_str3 = 0 →
      ∃ m, extract_preamble text = .error m) := by
  generalize hl : (splitlinesB text).map rstripB = lines
  have hext : extract_preamble text = (
      if lines.count search_str1 + lines.count search_str2 > 1 then
        .error "File contains multiple \\fastrecompileendpreamble lines"
      else if lines.count search_str1 + lines.count search_str2 = 1 then
        .ok ⟨lines.take (if lines.count search_str1 = 1 then lines.indexOf search_str1
          else lines.indexOf search_str2), false⟩
      else if lines.count search_str3 > 0 then
        .ok ⟨lines.take (lines.indexOf search_str3), true⟩
      else
        .error "File contains neither \\fastrecompileendpreamble nor \\begin\x7bdocument\x7d line") := by
    rw [extract_preamble, hl]
  refine ⟨?_, ?_, ?_, ?_⟩
  · intro h
    rw [hext, if_pos h]
    exact ⟨_, rfl⟩
  · intro h
    rw [hext, if_neg (by omega), if_pos h]
    by_cases h1 : lines.count search_str1 = 1
    · -- count1 = 1, count2 = 0: the index used is that of search_str1
      have h2 : lines.count search_str2 = 0 := by omega
      rw [if_pos h1]
      have hnot2 : search_str2 ∉ lines := List.count_eq_zero.mp h2
      rw [take_indexOf_eq_takeWhile]
      have : lines.takeWhile (fun x => !(x == search_str1)) =
          lines.takeWhile (fun l => !(l == search_str1 || l == search_str2)) := by
        refine takeWhile_congr_of_mem fun x hx => ?_
        have : (x == search_str2) = false := by
          simp only [beq_eq_false_iff_ne]
          intro hxe; exact hnot2 (hxe ▸ hx)
        simp [this]
      rw [this]
    · -- count1 = 0, count2 = 1: the index used is that of search_str2
      have h1z : lines.count search_str1 = 0 := by omega
      rw [if_neg h1]
      have hnot1 : search_str1 ∉ lines := List.count_eq_zero.mp h1z
      rw [take_indexOf_eq_takeWhile]
      have : lines.takeWhile (fun x => !(x == search_str2)) =
          lines.takeWhile (fun l => !(l == search_str1 || l == search_str2)) := by
        refine takeWhile_congr_of_mem fun x hx => ?_
        have : (x == search_str1) = false := by
          simp only [beq_eq_false_iff_ne]
          intro hxe; exact hnot1 (hxe ▸ hx)
        simp [this]
      rw [this]
  · intro h1 h2 h3
    rw [hext, if_neg (by omega), if_neg (by omega), if_pos h3,
      take_indexOf_eq_takeWhile]
  · intro h1 h2 h3
    rw [hext, if_neg (by omega), if_neg (by omega), if_neg (by omega)]
    exact ⟨_, rfl⟩

/-- C1 witness: a file with one explicit marker followed by a
`\begin{document}` line yields the prefix before the marker with
`implicit = false`. -/
theorem extract_preamble_characterization_witness :
    extract_preamble (strBytes "x\n\\fastrecompileendpreamble\n\\begin\x7bdocument\x7d") =
      .ok ⟨[strBytes "x"], false⟩ :=
  ((extract_preamble_characterization
    (strBytes "x\n\\fastrecompileendpreamble\n\\begin\x7bdocument\x7d")).2.1
      (by decide)).trans (by decide)

/-- C2 counterexample: on an existing source rejected by the scanner (no
marker and no `\begin{document}` line), `__enter__` does not fail with
NoPreamble — it swallows the scanner error and returns normally (with no
subprocess started), refuting the claim that `enter()` fails. -/
theorem enter_no_preamble_cex :
    exceptIsOk (extract_preamble (strBytes "hello")) = false ∧
    CompilerInstanceNormal.enter "main.tex".data (strBytes "hello") = .ok ⟨none, false⟩ :=
  ⟨rfl, rfl⟩

/-- C2 (amended): for every source file that exists but is rejected by the
Preamble Scanner (and whose filename passes the escaper), `__enter__`
completes without raising, captures no snapshot, and starts no engine
subprocess; the NoPreamble failure surfaces at `finish()` instead. -/
theorem enter_defers_no_preamble (filename : List Char) (fileBytes : List Nat) (rc0 : Bool)
    (hname : exceptIsOk (escape_filename_for_input filename) = true)
    (hscan : extractOpt fileBytes = none) :
    CompilerInstanceNormal.enter filename fileBytes = .ok ⟨none, false⟩ ∧
    CompilerInstanceNormal.finish ⟨none, false⟩ fileBytes rc0 = .error .noPreamble := by
  constructor
  · unfold CompilerInstanceNormal.enter
    cases he : escape_filename_for_input filename with
    | error m => rw [he] at hname; simp [exceptIsOk] at hname
    | ok t => rw [hscan]
  · unfold CompilerInstanceNormal.finish
    rw [hscan]
    rfl

/-- C2 witness: a concrete markerless file. -/
theorem enter_defers_no_preamble_witness :
    CompilerInstanceNormal.enter "doc.tex".data (strBytes "xyz") = .ok ⟨none, false⟩ ∧
    CompilerInstanceNormal.finish ⟨none, false⟩ (strBytes "xyz") true = .error .noPreamble :=
  enter_defers_no_preamble "doc.tex".data (strBytes "xyz") true rfl rfl

/-- C3 counterexample: two sources whose preambles have equal byte-line
sequences but different `implicit` flags produce `Preamble` values that
are not equal (the dataclass equality also compares the flag), and the
`finish()` comparison raises PreambleChanged on them — refuting that
equality, and hence the change check, is decided by byte-line sequences
alone. -/
theorem preamble_eq_not_content_only_cex :
    extract_preamble (strBytes "\\fastrecompileendpreamble") = .ok ⟨[], false⟩ ∧
    extract_preamble (strBytes "\\begin\x7bdocument\x7d") = .ok ⟨[], true⟩ ∧
    Preamble.content ⟨[], false⟩ = Preamble.content ⟨[], true⟩ ∧
    preambleEq ⟨[], false⟩ ⟨[], true⟩ = false ∧
    finishOutcome (some ⟨[], false⟩) (some ⟨[], true⟩) true = .error .preambleChanged :=
  ⟨rfl, rfl, rfl, by decide, by decide⟩

/-- C3 (amended): two `Preamble` values are equal iff their byte-line
sequences are equal AND their `implicit` flags are equal; the
preamble-change check at `finish()` raises PreambleChanged exactly when
that two-field equality fails (or when no snapshot was captured). -/
theorem preamble_eq_characterization :
    (∀ a b : Preamble, preambleEq a b = true ↔
      a.content = b.content ∧ a.implicit = b.implicit) ∧
    (∀ (p q : Preamble) (rc0 : Bool),
      finishOutcome (some p) (some q) rc0 = .error .preambleChanged ↔
        preambleEq p q = false) := by
  constructor
  · intro a b
    cases a; cases b
    simp [preambleEq]
  · intro p q rc0
    rcases eq_or_ne p q with h | h
    · subst h
      have : preambleEq p p = true := (preambleEq_eq_true_iff p p).mpr rfl
      simp [finishOutcome, this]
    · have hne : preambleEq p q = false := by
        rw [Bool.eq_false_iff]
        intro hx
        exact h ((preambleEq_eq_true_iff p q).mp hx)
      simp [finishOutcome, h, hne]

/-- C6: the staged instance mirrors artifacts to the real output
directory only when the wrapped `finish()` completes successfully (a
NoPreamble / PreambleChanged failure propagates before the mirror loop
and leaves the output directory untouched); on the mirror step every
regular file directly in the temp directory is copied with its mtime
preserved, and files inside subdirectories are not mirrored. -/
theorem staged_finish_mirrors_only_on_success (tmpEntries : List TEntry) (out : OutDir) :
    (∀ e : PyErr, CompilerInstanceTempOutputDir.finish (.error e) tmpEntries out =
      (out, .error e)) ∧
    (∀ b : Bool, CompilerInstanceTempOutputDir.finish (.ok b) tmpEntries out =
      (⟨out.files ++ tmpEntries.filterMap (fun ent => match ent with
          | .file n m d => some (n, m, d)
          | .dir _ _ => none)⟩, .ok b)) :=
  ⟨fun _ => rfl,
   fun b => by simp [CompilerInstanceTempOutputDir.finish, mirror_foldl_eq]⟩

/-- C8: `escape_filename_for_input` fails exactly when the filename begins
with `~`, begins with `|`, contains `$`, or contains a double quote; on
every accepted filename it returns the per-character translation (each
`#` to `\string#`, each space to `\space` plus a space, each of `%`, the
two braces and `\` to `\csname cs_to_str:N\endcsname` plus a backslash
and that character, all other characters unchanged). -/
theorem escape_filename_characterization (s : List Char) :
    (exceptIsOk (escape_filename_for_input s) = true ↔
      ¬(s.head? = some '~' ∨ s.head? = some '|' ∨ '$' ∈ s ∨ Char.ofNat 34 ∈ s)) ∧
    (∀ t, escape_filename_for_input s = .ok t → t = (s.map translate_table).flatten) := by
  unfold escape_filename_for_input
  constructor
  · split_ifs with h1 h2 h3 h4
    · simp [exceptIsOk, h1]
    · simp [exceptIsOk, h2]
    · exact iff_of_false (by simp [exceptIsOk])
        (fun hno => hno (Or.inr (Or.inr (Or.inl (List.elem_iff.mp h3)))))
    · exact iff_of_false (by simp [exceptIsOk])
        (fun hno => hno (Or.inr (Or.inr (Or.inr (List.elem_iff.mp h4)))))
    · refine iff_of_true (by simp [exceptIsOk]) ?_
      push_neg
      refine ⟨h1, h2, ?_, ?_⟩
      · intro hmem
        exact h3 (List.elem_iff.mpr hmem)
      · intro hmem
        exact h4 (List.elem_iff.mpr hmem)
  · intro t h
    split_ifs at h
    exact (Except.ok.injEq .. ▸ h).symm

/-- C8 witness: a filename with a space is accepted and translated. -/
theorem escape_filename_characterization_witness :
    "a\\space b.tex".data = ("a b.tex".data.map translate_table).flatten :=
  (escape_filename_characterization "a b.tex".data).2 "a\\space b.tex".data rfl

/-- C9: once the reader has dequeued the EOF sentinel (setting
`_eof_reached`), every subsequent read returns 0 bytes; and
`PipeWriter.close()` is idempotent — the first call enqueues exactly one
EOF sentinel and later calls change neither the queue nor the writer
state. -/
theorem pipe_eof_reads_zero_and_close_idempotent :
    (∀ rest : List (Option Nat),
      PipeReader.readinto true ⟨false⟩ (none :: rest) = some (0, ⟨true⟩, rest)) ∧
    (∀ (n : Nat) (q : List (Option Nat)),
      PipeReader.readRun n ⟨true⟩ q = List.replicate n 0) ∧
    (∀ q : List (Option Nat), PipeWriter.close ⟨false⟩ q = (⟨true⟩, q ++ [none])) ∧
    (∀ (w : PipeWriterState) (q : List (Option Nat)),
      PipeWriter.close (PipeWriter.close w q).1 (PipeWriter.close w q).2 =
        PipeWriter.close w q) := by
  refine ⟨fun rest => rfl, ?_, fun q => rfl, ?_⟩
  · intro n
    induction n with
    | zero => intro q; rfl
    | succ n ih =>
      intro q
      simp [PipeReader.readRun, PipeReader.readinto, List.replicate, ih]
  · intro w q
    cases w with
    | mk closed => cases closed <;> simp [PipeWriter.close]

/-- C10: when `enter()` found no usable preamble (absent snapshot, no
subprocess) and the file contains a valid preamble at `finish()` time,
`finish()` raises PreambleChanged rather than NoPreamble, because the
comparison against the snapshot runs before the `is None` check. -/
theorem finish_absent_snapshot_raises_preamble_changed
    (bytesNow : List Nat) (q : Preamble) (rc0 : Bool)
    (h : extractOpt bytesNow = some q) :
    CompilerInstanceNormal.finish ⟨none, false⟩ bytesNow rc0 = .error .preambleChanged := by
  unfold CompilerInstanceNormal.finish
  rw [h]
  simp [finishOutcome]

/-- C10 witness: a file that has gained a `\begin{document}` line. -/
theorem finish_absent_snapshot_raises_preamble_changed_witness :
    CompilerInstanceNormal.finish ⟨none, false⟩ (strBytes "\\begin\x7bdocument\x7d") true =
      .error .preambleChanged :=
  finish_absent_snapshot_raises_preamble_changed (strBytes "\\begin\x7bdocument\x7d")
    ⟨[], true⟩ true rfl


/-- C4 counterexample: a tick whose `finish()` succeeds but whose log file
is absent makes `recompile()` propagate `FileNotFoundError` (raised by
`read_bytes` on the log path, line 792) to its caller — refuting the
claim that `recompile()` never propagates and that missing log files are
reported via the output pipe or the boolean return value. -/
theorem recompile_propagates_missing_log_cex :
    (recompile sampleCfg sampleCE false [sampleIterNoLog] sampleState).1 =
      some (.error .fileNotFound) := rfl

/-- C4 (amended): `recompile()` can propagate exceptions — a missing log
file raises `FileNotFoundError` (see the counterexample); further leak
paths are the precompile step re-raising NoPreamble on a preamble-watch
tick and the `assert` in `_stop_compiler`.  When precompile mode is off,
every pass's log file exists, every `finish()`-time scan finds a preamble,
and a preamble-watch tick finds a parked instance, `recompile()`
propagates nothing: NoPreamble at tick start, PreambleChanged, engine
crashes and a missing output PDF are all reported via the output pipe or
the boolean return value. -/
theorem recompile_no_propagation (cfg : Config) (ce : ChangedEnv) (flag : Bool)
    (trace : List IterEnv) (s : DaemonState) (r : Except PyErr Bool)
    (old : DPipe) (s2 : DaemonState)
    (hpre : cfg.precompile = false)
    (hlog : ∀ e ∈ trace, e.logExists = true)
    (hext : ∀ e ∈ trace, e.finishExtract.isSome = true)
    (hflag : flag = true → s.compiler.isSome = true)
    (hrun : recompile cfg ce flag trace s = (some r, old, s2)) :
    ∃ b, r = .ok b := by
  have htr : ∀ x ∈ trace, x.logExists = true ∧ x.finishExtract.isSome = true :=
    fun x hx => ⟨hlog x hx, hext x hx⟩
  simp only [recompile] at hrun
  cases flag with
  | false =>
    rcases hin : recompile_preamble_not_changed cfg trace s with _ | ⟨s1, res⟩ <;>
      rw [if_neg (by simp), hin] at hrun
    · simp at hrun
    · obtain ⟨b, hb⟩ := ((daemon_no_error_aux cfg hpre trace).1 _ _ _ htr hin).1
      subst hb
      simp only [Prod.mk.injEq] at hrun
      exact ⟨b, (Option.some.injEq .. ▸ hrun.1).symm⟩
  | true =>
    rcases hin : recompile_preamble_changed cfg ce trace (writePipe s .preambleWatchChanged)
      with _ | ⟨s1, res⟩ <;> rw [if_pos rfl, hin] at hrun
    · simp at hrun
    · obtain ⟨b, hb⟩ := ((daemon_no_error_aux cfg hpre trace).2 ce _ _ _
        (by simp [writePipe, hflag rfl]) htr hin).1
      subst hb
      simp only [Prod.mk.injEq] at hrun
      exact ⟨b, (Option.some.injEq .. ▸ hrun.1).symm⟩

/-- C4 witness: a concrete healthy tick returns a boolean. -/
theorem recompile_no_propagation_witness :
    recompile sampleCfg sampleCE false [sampleIterOk] sampleState =
      (some (.ok true), ⟨[some Msg.engineOutput, none], true⟩,
        ⟨some (some samplePre), false, []⟩) ∧
    ∃ b, (Except.ok true : Except PyErr Bool) = .ok b :=
  ⟨rfl, recompile_no_propagation sampleCfg sampleCE false [sampleIterOk] sampleState
    (.ok true) ⟨[some Msg.engineOutput, none], true⟩ ⟨some (some samplePre), false, []⟩
    rfl (by decide) (by decide) (by decide) rfl⟩

/-- C5: for an iteration in which every `finish()` in the (possibly
rerunning) chain completes without NoPreamble or PreambleChanged and the
log is readable, `recompile()` returns true iff the final pass's engine
returncode is 0 and the output PDF exists; a further rerun pass is taken
exactly when the log bytes contain a rerun substring, each printing one
"Rerunning." message into the output pipe after disposing the instance. -/
theorem recompile_success_characterization (cfg : Config) (ce : ChangedEnv)
    (e : IterEnv) (rest : List IterEnv) (s : DaemonState) (ef : IterEnv)
    (hfmt : cfg.precompile = true → s.fmtPresent = true)
    (hchain : chain_ok (eff_pstart s e) (e :: rest) = true)
    (hfinal : final_iter (e :: rest) = some ef) :
    ∃ old : DPipe, ∃ s2 : DaemonState,
      recompile cfg ce false (e :: rest) s =
        (some (.ok (ef.rc0 && ef.pdfExists)), old, s2) ∧
      countRerunMsgs old.q = countRerunMsgs s.pipeq + num_reruns (e :: rest) ∧
      s2.pipeq = [] := by
  obtain ⟨s2, hrun, hcount, hsome, _⟩ := chain_run cfg rest e s ef hfmt hchain hfinal
  refine ⟨⟨s2.pipeq ++ [none], true⟩, {s2 with pipeq := []}, ?_, ?_, rfl⟩
  · simp only [recompile, Bool.false_eq_true, if_false, hrun]
  · simp only [countRerunMsgs, List.count_append] at hcount ⊢
    simp [hcount]

/-- C5 witness: a concrete chain of one rerun followed by a success. -/
theorem recompile_success_characterization_witness :
    ∃ old : DPipe, ∃ s2 : DaemonState,
      recompile sampleCfg sampleCE false [sampleIterRerun, sampleIterOk] sampleState =
        (some (.ok (sampleIterOk.rc0 && sampleIterOk.pdfExists)), old, s2) ∧
      countRerunMsgs old.q = countRerunMsgs sampleState.pipeq +
        num_reruns [sampleIterRerun, sampleIterOk] ∧
      s2.pipeq = [] :=
  recompile_success_characterization sampleCfg sampleCE sampleIterRerun [sampleIterOk]
    sampleState sampleIterOk (by decide) (by decide) (by decide)

/-- C7: after every returning call to `recompile()` — normal, reported
error, or rerun — the writer of the output pipe that was current when the
call began has been closed by the `finally` (its queue ends in the EOF
sentinel, so a drained reader sees EOF by the `PipeReader` semantics),
and whenever no exception propagates the daemon holds a fresh empty pipe
for the next iteration. -/
theorem recompile_rotates_pipe (cfg : Config) (ce : ChangedEnv) (flag : Bool)
    (trace : List IterEnv) (s : DaemonState) (r : Except PyErr Bool)
    (old : DPipe) (s2 : DaemonState)
    (hrun : recompile cfg ce flag trace s = (some r, old, s2)) :
    old.closed = true ∧ old.q.getLast? = some none ∧
      (∀ b, r = .ok b → s2.pipeq = []) := by
  simp only [recompile] at hrun
  rcases hin : (if flag then recompile_preamble_changed cfg ce trace
        (writePipe s .preambleWatchChanged)
      else recompile_preamble_not_changed cfg trace s) with _ | ⟨s1, res⟩
  · rw [hin] at hrun
    simp at hrun
  · rw [hin] at hrun
    cases res with
    | error e =>
      simp only [Prod.mk.injEq] at hrun
      obtain ⟨h1, h2, h3⟩ := hrun
      subst h2
      injection h1 with h1
      subst h1
      refine ⟨rfl, List.getLast?_concat _, ?_⟩
      intro b hb
      simp at hb
    | ok b =>
      simp only [Prod.mk.injEq] at hrun
      obtain ⟨h1, h2, h3⟩ := hrun
      subst h2 h3
      exact ⟨rfl, List.getLast?_concat _, fun b2 _ => rfl⟩

/-- C7 witness: the concrete healthy tick from the C4 witness data. -/
theorem recompile_rotates_pipe_witness :
    (⟨[some Msg.engineOutput, none], true⟩ : DPipe).closed = true ∧
    (⟨[some Msg.engineOutput, none], true⟩ : DPipe).q.getLast? = some none ∧
    (∀ b, (Except.ok true : Except PyErr Bool) = .ok b →
      (⟨some (some samplePre), false, []⟩ : DaemonState).pipeq = []) :=
  recompile_rotates_pipe sampleCfg sampleCE false [sampleIterOk] sampleState (.ok true)
    ⟨[some Msg.engineOutput, none], true⟩ ⟨some (some samplePre), false, []⟩ rfl

end TexFastRecompile
